import Mathlib

/-!
Shallow embedding of the column-summary core of the `database-peeker`
repository (`src/common.py`): the qualified-name parser `split_qualified`,
the aggregate-query builder and result reshaper inside
`load_column_summary`, the unique-value counter `load_unique_counts`, and
the null-display normalizer `display_df`.
-/

namespace DbPeeker

/-- Generic Python type reported by a SQLAlchemy type object's
`python_type` property (`None` models the property raising
`NotImplementedError`, as `sqltypes.NullType` and `mssql.BIT` do). -/
inductive PyType where
  | pyBool
  | pyInt
  | pyFloat
  | pyDecimal
  | pyStr
  | pyDate
  | pyDatetime
  | pyTime
  | pyBytes
  | pyDict
  deriving DecidableEq

/-- The SQLAlchemy type objects the inspector can attach to a column,
restricted to the generic and mssql types relevant to this program. -/
inductive SqlType where
  | Integer
  | Numeric
  | Float
  | Boolean
  | VARCHAR
  | Text
  | UnicodeText
  | Date
  | DateTime
  | Time
  | LargeBinary
  | VARBINARY
  | JSON
  | NullType
  | BIT
  deriving DecidableEq

/-- The value of `stype.python_type` for each modelled SQLAlchemy type;
`none` when the property raises `NotImplementedError`. -/
def pythonType : SqlType → Option PyType
  | .Integer => some .pyInt
  | .Numeric => some .pyDecimal
  | .Float => some .pyFloat
  | .Boolean => some .pyBool
  | .VARCHAR => some .pyStr
  | .Text => some .pyStr
  | .UnicodeText => some .pyStr
  | .Date => some .pyDate
  | .DateTime => some .pyDatetime
  | .Time => some .pyTime
  | .LargeBinary => some .pyBytes
  | .VARBINARY => some .pyBytes
  | .JSON => some .pyDict
  | .NullType => none
  | .BIT => none

/-- The `__visit_name__` attribute of each modelled SQLAlchemy type. -/
def visitName : SqlType → String
  | .Integer => "integer"
  | .Numeric => "numeric"
  | .Float => "float"
  | .Boolean => "boolean"
  | .VARCHAR => "VARCHAR"
  | .Text => "text"
  | .UnicodeText => "unicode_text"
  | .Date => "date"
  | .DateTime => "datetime"
  | .Time => "time"
  | .LargeBinary => "large_binary"
  | .VARBINARY => "VARBINARY"
  | .JSON => "JSON"
  | .NullType => "null"
  | .BIT => "BIT"

/-- Python's `isinstance(stype, UNSUPPORTED_DISTINCT)` for the tuple
`(LargeBinary, Text, UnicodeText, VARBINARY, JSON, NullType)` built in
`load_column_summary`, following the SQLAlchemy class hierarchy
(`UnicodeText` is a subclass of `Text`, `VARBINARY` of `LargeBinary`). -/
def unsupportedDistinct : SqlType → Bool
  | .Text => true
  | .UnicodeText => true
  | .LargeBinary => true
  | .VARBINARY => true
  | .JSON => true
  | .NullType => true
  | _ => false

/-- Python's `issubclass(ptype, (int, float, decimal.Decimal))`; `bool` is
a subclass of `int` in Python, but the dispatch chain tests the `bool`
branch first so this case is never reached for booleans. -/
def pySubclassOfNumeric : PyType → Bool
  | .pyBool => true
  | .pyInt => true
  | .pyFloat => true
  | .pyDecimal => true
  | _ => false

/-- Python's `issubclass(ptype, (datetime.date, datetime.datetime, str))`;
`datetime.time` is not a subclass of `datetime.date`, so it is excluded. -/
def pySubclassOfDateStr : PyType → Bool
  | .pyDate => true
  | .pyDatetime => true
  | .pyStr => true
  | _ => false

/-- One column of the inspector's metadata (`cols_meta` entry): its name
and its SQLAlchemy type object. -/
structure Col where
  name : String
  type : SqlType
  deriving DecidableEq

/-- The branch of the min/max/avg dispatch chain in `load_column_summary`
taken for a given SQLAlchemy type: this is the spec's `semanticCategory`
as the code realizes it. -/
inductive Category where
  | boolean
  | numeric
  | temporalOrText
  | unsupported
  deriving DecidableEq

/-- Which branch of the `if ptype is bool / elif numeric / elif date-str /
else` chain in `load_column_summary` fires for a given type. -/
def semanticCategory (t : SqlType) : Category :=
  match pythonType t with
  | some .pyBool => .boolean
  | some p =>
    if pySubclassOfNumeric p then .numeric
    else if pySubclassOfDateStr p then .temporalOrText
    else .unsupported
  | none => .unsupported

def mkMin (n : String) : String := "MIN([" ++ n ++ "])"

def mkMax (n : String) : String := "MAX([" ++ n ++ "])"

def mkAvg (n : String) : String := "AVG([" ++ n ++ "])"

/-- The `(min_expr, max_expr, avg_expr)` triple computed by the dispatch
chain of `load_column_summary` for a column named `n` whose type reports
`pt` as its python type. -/
def aggExprs (n : String) (pt : Option PyType) : String × String × String :=
  match pt with
  | some .pyBool => ("NULL", "NULL", "NULL")
  | some p =>
    if pySubclassOfNumeric p then (mkMin n, mkMax n, mkAvg n)
    else if pySubclassOfDateStr p then (mkMin n, mkMax n, "NULL")
    else ("NULL", "NULL", "NULL")
  | none => ("NULL", "NULL", "NULL")

/-- The `uniq_expr` of `load_column_summary`: `NULL` for types failing
`COUNT(DISTINCT ...)` on SQL Server, the distinct-count otherwise. -/
def uniqExpr (n : String) (t : SqlType) : String :=
  if unsupportedDistinct t then "NULL" else "COUNT(DISTINCT [" ++ n ++ "])"

/-- The `null_expr` of `load_column_summary`. -/
def nullExpr (n : String) : String :=
  "SUM(CASE WHEN [" ++ n ++ "] IS NULL THEN 1 ELSE 0 END)"

/-- The five aliased select fragments appended to `agg_fragments` for one
column (spacing as in the Python f-strings). -/
def colFragments (c : Col) : List String :=
  let n := c.name
  let e := aggExprs n (pythonType c.type)
  [ e.1 ++ "  AS [" ++ n ++ "_min]",
    e.2.1 ++ "  AS [" ++ n ++ "_max]",
    e.2.2 ++ "  AS [" ++ n ++ "_avg]",
    uniqExpr n c.type ++ " AS [" ++ n ++ "_unique]",
    nullExpr n ++ " AS [" ++ n ++ "_nulls]" ]

/-- The whole `agg_fragments` list accumulated by the column loop. -/
def aggFragments : List Col → List String
  | [] => []
  | c :: cs => colFragments c ++ aggFragments cs

/-- The single aggregate SQL statement `query` built by
`load_column_summary`. -/
def summary_query (sql_name : String) (cols : List Col) : String :=
  "SELECT " ++ String.intercalate ", " (aggFragments cols) ++ " FROM " ++ sql_name

/-- A pandas cell value: `missing` models NaN / None / NaT, the values for
which `isna()` is true. -/
inductive Val where
  | missing
  | text (s : String)
  | num (n : Int)
  deriving DecidableEq

/-- Pandas `isna` on one cell. -/
def isna : Val → Bool
  | .missing => true
  | _ => false

/-- The `__name__` of a python type, for the `pytype` report column. -/
def pyTypeName : PyType → String
  | .pyBool => "bool"
  | .pyInt => "int"
  | .pyFloat => "float"
  | .pyDecimal => "Decimal"
  | .pyStr => "str"
  | .pyDate => "date"
  | .pyDatetime => "datetime"
  | .pyTime => "time"
  | .pyBytes => "bytes"
  | .pyDict => "dict"

/-- One row of the reshaped report built by the record loop of
`load_column_summary`. -/
structure ColumnSummaryRecord where
  column : String
  sqltype : String
  pytype : String
  min : Val
  max : Val
  avg : Val
  unique : Val
  nulls : Val
  deriving DecidableEq

/-- First value bound to key `k` in an association list (the wide result
row `row`, whose field order is whatever the driver returned). -/
def lookupVal (k : String) : List (String × Val) → Option Val
  | [] => none
  | (k2, v) :: rest => if k2 = k then some v else lookupVal k rest

/-- Indexing `row[k]` on the wide result row; a SQL `NULL` result arrives
as a pandas-missing value. -/
def getVal (row : List (String × Val)) (k : String) : Val :=
  match lookupVal k row with
  | some v => v
  | none => Val.missing

/-- One record of the reshape loop in `load_column_summary`: the metrics
are pulled out of the wide row by the `<column>_<metric>` key convention,
`sqltype` is the upper-cased `__visit_name__`, and `pytype` falls back to
the literal string given when `python_type` raises. -/
def reshape1 (row : List (String × Val)) (c : Col) : ColumnSummaryRecord :=
  { column := c.name,
    sqltype := (visitName c.type).toUpper,
    pytype := match pythonType c.type with
              | some p => pyTypeName p
              | none => "<NULL>",
    min := getVal row (c.name ++ "_min"),
    max := getVal row (c.name ++ "_max"),
    avg := getVal row (c.name ++ "_avg"),
    unique := getVal row (c.name ++ "_unique"),
    nulls := getVal row (c.name ++ "_nulls") }

/-- The full reshape loop: one record per metadata column, in metadata
order. -/
def reshape (row : List (String × Val)) (cols : List Col) :
    List ColumnSummaryRecord :=
  cols.map (reshape1 row)

/-- A pandas DataFrame as its grid of cells. -/
abbrev DF := List (List Val)

/-- The body of `display_df`: copy to object dtype, take the `isna` mask,
assign the literal over the mask — cellwise, replace every missing cell by
the reserved token. -/
def display_df (df : DF) : DF :=
  df.map (fun row => row.map (fun v => if isna v then Val.text "<NULL>" else v))

/-- Python's `str.lower()`, ASCII-wise (the only characters appearing in
SQLAlchemy visit names). -/
def charLower (c : Char) : Char :=
  if 'A' ≤ c ∧ c ≤ 'Z' then Char.ofNat (c.toNat + 32) else c

/-- Lowercase a whole string. -/
def strLower (s : String) : String := ⟨s.data.map charLower⟩

/-- The python dict `{"1": "True", "0": "False", None: "<NULL>"}` applied
through `Series.map`: keys absent from the dict map to missing (NaN). -/
def bitValueMap : Option String → Option String
  | some "1" => some "True"
  | some "0" => some "False"
  | none => some "<NULL>"
  | some _ => none

/-- The post-SQL part of `load_unique_counts`: `df` is the grouped result
(one row per distinct group, already ordered by count descending); when
the column's `__visit_name__` lower-cases to `bit` the values are remapped
through `bitValueMap`; the frame is returned only when its row count is at
most `limit`, otherwise `None` is returned. -/
def load_unique_counts (df : List (Option String × Nat)) (colType : SqlType)
    (limit : Nat := 300) : Option (List (Option String × Nat)) :=
  let is_bit := strLower (visitName colType) = "bit"
  let df2 := if is_bit then df.map (fun p => (bitValueMap p.1, p.2)) else df
  if df2.length ≤ limit then some df2 else none

/-- Python's `re.sub` removing every square bracket from the name, on the
character-list view of strings. -/
def stripBrackets : List Char → List Char
  | [] => []
  | c :: cs =>
    if c = '[' ∨ c = ']' then stripBrackets cs else c :: stripBrackets cs

/-- Python's `str.split(".")`: split at every dot, keeping empty pieces. -/
def splitDot : List Char → List (List Char)
  | [] => [[]]
  | c :: cs =>
    if c = '.' then [] :: splitDot cs
    else
      match splitDot cs with
      | [] => [[c]]
      | p :: ps => (c :: p) :: ps

/-- The parser `split_qualified`: brackets removed, then split on every
dot; exactly two pieces give a (schema, table) pair, any other piece count
gives no schema and the first piece as table. -/
def split_qualified (name : List Char) : Option (List Char) × List Char :=
  match splitDot (stripBrackets name) with
  | [a, b] => (some a, b)
  | parts => (none, parts.headD [])

/-- Split a character list at its first dot, when there is one. -/
def firstDot : List Char → Option (List Char × List Char)
  | [] => none
  | c :: cs =>
    if c = '.' then some ([], cs)
    else
      match firstDot cs with
      | none => none
      | some (a, b) => some (c :: a, b)

/-- Modelled from the spec: the parser as §4.1 describes it, "stripping
bracket delimiters before splitting on the first dot only"; used only to
compare the spec's wording with `split_qualified`. -/
def split_qualified_spec (name : List Char) : Option (List Char) × List Char :=
  match firstDot (stripBrackets name) with
  | some (a, b) => (some a, b)
  | none => (none, stripBrackets name)

/-- A heap of DataFrames, for the frame property of `display_df`:
references are list indices. -/
structure Store where
  dfs : List DF
  deriving DecidableEq

/-- Dereference a DataFrame. -/
def readRef (st : Store) (r : Nat) : DF :=
  (st.dfs[r]?).getD []

/-- Overwrite the DataFrame behind a reference in place. -/
def writeRef (st : Store) (r : Nat) (d : DF) : Store :=
  ⟨st.dfs.set r d⟩

/-- Allocate a fresh DataFrame, returning its reference. -/
def allocRef (st : Store) (d : DF) : Store × Nat :=
  (⟨st.dfs ++ [d]⟩, st.dfs.length)

/-- Cellwise mask of missing values, as `df.isna()` computes it. -/
def isnaMask (d : DF) : List (List Bool) :=
  d.map (List.map isna)

/-- Masked assignment `out[mask] = repl`. -/
def assignMask (d : DF) (m : List (List Bool)) (repl : Val) : DF :=
  List.zipWith (fun row mrow => List.zipWith (fun v b => if b then repl else v) row mrow) d m

/-- The statements of `display_df` run against the store: `out` is a fresh
copy of the argument (`df.copy().astype("object")` copies the cells), the
mask is taken from `out`, and the masked assignment mutates `out` only;
returns the updated store and the reference to the new frame. -/
def display_df_prog (st : Store) (dfRef : Nat) : Store × Nat :=
  let alloc := allocRef st (readRef st dfRef)
  let st1 := alloc.1
  let outRef := alloc.2
  let mask := isnaMask (readRef st1 outRef)
  let st2 := writeRef st1 outRef (assignMask (readRef st1 outRef) mask (Val.text "<NULL>"))
  (st2, outRef)

/-! Theorems about the embedded program. -/

/-- C2: for every column the builder emits exactly five expressions,
selected by the column's semantic category: boolean and unsupported
columns get null min, max and avg; numeric columns get MIN, MAX and AVG;
temporal-or-text columns get MIN and MAX but null avg; and the fifth
expression is always the count of nulls. -/
theorem claim2 (c : Col) :
    (colFragments c).length = 5 ∧
    (semanticCategory c.type = Category.boolean →
      aggExprs c.name (pythonType c.type) = ("NULL", "NULL", "NULL")) ∧
    (semanticCategory c.type = Category.numeric →
      aggExprs c.name (pythonType c.type) = (mkMin c.name, mkMax c.name, mkAvg c.name)) ∧
    (semanticCategory c.type = Category.temporalOrText →
      aggExprs c.name (pythonType c.type) = (mkMin c.name, mkMax c.name, "NULL")) ∧
    (semanticCategory c.type = Category.unsupported →
      aggExprs c.name (pythonType c.type) = ("NULL", "NULL", "NULL")) ∧
    (colFragments c).getD 4 "" = nullExpr c.name ++ " AS [" ++ c.name ++ "_nulls]" := by
  obtain ⟨n, t⟩ := c
  cases t <;>
    simp [colFragments, aggExprs, semanticCategory, pythonType,
      pySubclassOfNumeric, pySubclassOfDateStr]

/-- C2 witness: each category's shape realized at a concrete column. -/
theorem claim2_witness :
    (colFragments ⟨"x", SqlType.Integer⟩).length = 5 ∧
    aggExprs "b" (pythonType SqlType.Boolean) = ("NULL", "NULL", "NULL") ∧
    aggExprs "x" (pythonType SqlType.Integer) = ("MIN([x])", "MAX([x])", "AVG([x])") ∧
    aggExprs "s" (pythonType SqlType.VARCHAR) = ("MIN([s])", "MAX([s])", "NULL") ∧
    aggExprs "t" (pythonType SqlType.Time) = ("NULL", "NULL", "NULL") :=
  ⟨(claim2 ⟨"x", SqlType.Integer⟩).1,
   (claim2 ⟨"b", SqlType.Boolean⟩).2.1 rfl,
   (claim2 ⟨"x", SqlType.Integer⟩).2.2.1 rfl,
   (claim2 ⟨"s", SqlType.VARCHAR⟩).2.2.2.1 rfl,
   (claim2 ⟨"t", SqlType.Time⟩).2.2.2.2.1 rfl⟩

/-- C1 counterexample: a TIME column has unsupported semantic category
(its python type, `datetime.time`, matches none of the dispatch branches),
yet the builder emits `COUNT(DISTINCT ...)` for it — the type is not in
the `UNSUPPORTED_DISTINCT` tuple — and the reshaped `unique` field then
carries the raw distinct count, not the missing marker. -/
theorem claim1_counterexample :
    semanticCategory SqlType.Time = Category.unsupported ∧
    uniqExpr "t" SqlType.Time = "COUNT(DISTINCT [t])" ∧
    uniqExpr "t" SqlType.Time ≠ "NULL" ∧
    (reshape1 [("t_unique", Val.num 5)] ⟨"t", SqlType.Time⟩).unique = Val.num 5 ∧
    Val.num 5 ≠ Val.missing := by
  refine ⟨rfl, rfl, by decide, ?_, by decide⟩
  simp [reshape1, getVal, lookupVal]

/-- C1 amended: for every column whose declared type is in the
`UNSUPPORTED_DISTINCT` tuple (Text, UnicodeText, LargeBinary, VARBINARY,
JSON, NullType), the builder emits no DISTINCT aggregate — the unique
expression is the SQL literal `NULL` — and the reshaped record's `unique`
field carries the missing value, which the display layer renders as the
reserved token; columns of unsupported semantic category outside that
tuple (e.g. TIME) still receive a DISTINCT aggregate. -/
theorem claim1_amended (c : Col) (row : List (String × Val))
    (h : unsupportedDistinct c.type = true)
    (h2 : getVal row (c.name ++ "_unique") = Val.missing) :
    uniqExpr c.name c.type = "NULL" ∧
    (reshape1 row c).unique = Val.missing ∧
    (if isna (reshape1 row c).unique then Val.text "<NULL>"
     else (reshape1 row c).unique) = Val.text "<NULL>" := by
  have hu : (reshape1 row c).unique = Val.missing := h2
  refine ⟨by simp [uniqExpr, h], hu, by rw [hu]; rfl⟩

/-- C1 amended witness: a large-object text column at a wide row whose
unique field came back as SQL NULL. -/
theorem claim1_amended_witness :
    uniqExpr "notes" SqlType.Text = "NULL" ∧
    (reshape1 [("notes_unique", Val.missing)] ⟨"notes", SqlType.Text⟩).unique
      = Val.missing ∧
    (if isna (reshape1 [("notes_unique", Val.missing)] ⟨"notes", SqlType.Text⟩).unique
     then Val.text "<NULL>"
     else (reshape1 [("notes_unique", Val.missing)] ⟨"notes", SqlType.Text⟩).unique)
      = Val.text "<NULL>" :=
  claim1_amended ⟨"notes", SqlType.Text⟩ [("notes_unique", Val.missing)]
    (by decide) (by simp [getVal, lookupVal])

/-- C9: the builder is deterministic in its inputs — two invocations on
equal column-metadata sequences yield byte-identical SQL text. -/
theorem claim9 (sql_name : String) (cols cols' : List Col)
    (h : cols = cols') :
    summary_query sql_name cols = summary_query sql_name cols' := by
  rw [h]

/-- C9 witness: two invocations on the same concrete metadata. -/
theorem claim9_witness :
    summary_query "[dmd].[V1]" [⟨"a", SqlType.Integer⟩]
      = summary_query "[dmd].[V1]" [⟨"a", SqlType.Integer⟩] :=
  claim9 "[dmd].[V1]" [⟨"a", SqlType.Integer⟩] [⟨"a", SqlType.Integer⟩] rfl

/-- C4: with `df` the grouped one-row-per-distinct-group result, whenever
the number of distinct groups strictly exceeds the limit the counter
returns the suppression sentinel `none`, never a truncated list; at or
below the limit it returns the rows, as many as there are groups. -/
theorem claim4 (df : List (Option String × Nat)) (t : SqlType) (limit : Nat) :
    (limit < df.length → load_unique_counts df t limit = none) ∧
    (df.length ≤ limit →
      ∃ rows, load_unique_counts df t limit = some rows ∧
        rows.length = df.length) := by
  have hlen : (if strLower (visitName t) = "bit"
      then df.map (fun p => (bitValueMap p.1, p.2)) else df).length = df.length := by
    split <;> simp
  constructor
  · intro h
    simp only [load_unique_counts]
    rw [if_neg]
    omega
  · intro h
    simp only [load_unique_counts]
    rw [if_pos (by omega)]
    exact ⟨_, rfl, hlen⟩

/-- C4 witness: a two-group result is suppressed at limit 1 and returned
whole at limit 2. -/
theorem claim4_witness :
    load_unique_counts [(some "a", 1), (some "b", 1)] SqlType.Integer 1 = none ∧
    (∃ rows, load_unique_counts [(some "a", 1), (some "b", 1)] SqlType.Integer 2
      = some rows ∧ rows.length = 2) :=
  ⟨(claim4 [(some "a", 1), (some "b", 1)] SqlType.Integer 1).1 (by decide),
   (claim4 [(some "a", 1), (some "b", 1)] SqlType.Integer 2).2 (by decide)⟩

/-- C5: on a BIT column the counter remaps the grouped textual values "1"
to "True", "0" to "False" and null to the null marker, preserving every
group's count (hence the count-descending order) and the group count; on
a column of any other modelled type the rows come back unchanged. -/
theorem claim5 (df : List (Option String × Nat)) (limit : Nat)
    (h : df.length ≤ limit) :
    load_unique_counts df SqlType.BIT limit
      = some (df.map (fun p => (bitValueMap p.1, p.2))) ∧
    bitValueMap (some "1") = some "True" ∧
    bitValueMap (some "0") = some "False" ∧
    bitValueMap none = some "<NULL>" ∧
    (df.map (fun p => (bitValueMap p.1, p.2))).map Prod.snd = df.map Prod.snd ∧
    (∀ t : SqlType, strLower (visitName t) ≠ "bit" →
      load_unique_counts df t limit = some df) := by
  refine ⟨?_, rfl, rfl, rfl, by simp, ?_⟩
  · simp only [load_unique_counts]
    rw [if_pos (show strLower (visitName SqlType.BIT) = "bit" by decide),
      if_pos (by simpa using h)]
  · intro t ht
    simp only [load_unique_counts]
    rw [if_neg ht, if_pos h]

/-- C5 witness: the spec's example rows on a BIT column, and the same rows
untouched on an integer column. -/
theorem claim5_witness :
    load_unique_counts [(some "1", 40), (some "0", 10), (none, 2)] SqlType.BIT 300
      = some [(some "True", 40), (some "False", 10), (some "<NULL>", 2)] ∧
    load_unique_counts [(some "1", 40), (some "0", 10), (none, 2)] SqlType.Integer 300
      = some [(some "1", 40), (some "0", 10), (none, 2)] := by
  have h := claim5 [(some "1", 40), (some "0", 10), (none, 2)] 300 (by decide)
  exact ⟨by simpa using h.1, h.2.2.2.2.2 SqlType.Integer (by decide)⟩

/-- C7: the normalizer replaces exactly the pandas-missing cells by the
reserved token `<NULL>`; every text cell — in particular one holding the
literal text "None" — and every numeric cell is left untouched. -/
theorem claim7 (df : DF) :
    display_df df
      = df.map (List.map (fun v => if v = Val.missing then Val.text "<NULL>" else v)) ∧
    (∀ s : String, display_df [[Val.text s]] = [[Val.text s]]) ∧
    (∀ n : Int, display_df [[Val.num n]] = [[Val.num n]]) ∧
    display_df [[Val.missing]] = [[Val.text "<NULL>"]] ∧
    display_df [[Val.text "None"]] = [[Val.text "None"]] := by
  refine ⟨?_, fun s => rfl, fun n => rfl, rfl, rfl⟩
  simp only [display_df]
  congr 1
  funext row
  congr 1
  funext v
  cases v <;> simp [isna]

/-- C10: when a column's native type cannot report a generic python type,
the reshaper writes the literal string `<NULL>` — the very token the
display layer reserves for missing values — into the record's `pytype`
field, so after display that ordinary field value is indistinguishable
from a true missing marker. -/
theorem claim10 (c : Col) (row : List (String × Val))
    (h : pythonType c.type = none) :
    (reshape1 row c).pytype = "<NULL>" ∧
    display_df [[Val.text (reshape1 row c).pytype, Val.missing]]
      = [[Val.text "<NULL>", Val.text "<NULL>"]] := by
  have hp : (reshape1 row c).pytype = "<NULL>" := by
    simp [reshape1, h]
  exact ⟨hp, by rw [hp]; rfl⟩

/-- C10 witness: a SQL Server BIT column, whose SQLAlchemy type object
raises on `python_type`. -/
theorem claim10_witness :
    (reshape1 [] ⟨"flag", SqlType.BIT⟩).pytype = "<NULL>" ∧
    display_df [[Val.text (reshape1 [] ⟨"flag", SqlType.BIT⟩).pytype, Val.missing]]
      = [[Val.text "<NULL>", Val.text "<NULL>"]] :=
  claim10 ⟨"flag", SqlType.BIT⟩ [] rfl

/-- C8: the normalizer returns a fresh report and leaves its argument
unchanged — after running the statements of `display_df` against the
store, every cell reachable through the argument's reference reads back
exactly as before, and the returned reference is a different one. -/
theorem claim8 (st : Store) (dfRef : Nat) (h : dfRef < st.dfs.length) :
    readRef (display_df_prog st dfRef).1 dfRef = readRef st dfRef ∧
    (display_df_prog st dfRef).2 ≠ dfRef := by
  constructor
  · show readRef ⟨(st.dfs ++ [readRef st dfRef]).set st.dfs.length _⟩ dfRef
      = readRef st dfRef
    simp only [readRef]
    rw [List.getElem?_set_ne (by omega), List.getElem?_append, if_pos h]
  · show st.dfs.length ≠ dfRef
    omega

/-- C8 witness: a one-frame store whose only frame holds a missing cell
and a text cell. -/
theorem claim8_witness :
    readRef (display_df_prog ⟨[[[Val.missing, Val.text "None"]]]⟩ 0).1 0
      = readRef ⟨[[[Val.missing, Val.text "None"]]]⟩ 0 ∧
    (display_df_prog ⟨[[[Val.missing, Val.text "None"]]]⟩ 0).2 ≠ 0 :=
  claim8 ⟨[[[Val.missing, Val.text "None"]]]⟩ 0 (by decide)

/-- Looking a key up in an association list with pairwise-distinct keys is
invariant under permuting the list. -/
theorem lookupVal_perm (k : String) :
    ∀ {l1 l2 : List (String × Val)}, l1.Perm l2 →
      (l1.map Prod.fst).Nodup → lookupVal k l1 = lookupVal k l2 := by
  intro l1 l2 hp
  induction hp with
  | nil => intro _; rfl
  | cons x p ih =>
    intro hn
    simp only [lookupVal]
    by_cases hk : x.1 = k
    · simp [hk]
    · simp only [if_neg hk]
      exact ih (by simpa using (List.nodup_cons.mp (by simpa using hn)).2)
  | swap x y l =>
    intro hn
    have hxy : y.1 ≠ x.1 := by
      have h0 : (List.map Prod.fst (y :: x :: l)).Nodup := hn
      rw [List.map_cons, List.map_cons, List.nodup_cons] at h0
      exact fun hEq => h0.1 (hEq ▸ List.mem_cons_self _ _)
    simp only [lookupVal]
    by_cases hy : y.1 = k
    · rw [if_pos hy, if_neg (fun h => hxy (by rw [hy, h])), if_pos hy]
    · by_cases hx : x.1 = k
      · rw [if_neg hy, if_pos hx, if_pos hx]
      · rw [if_neg hy, if_neg hx, if_neg hx, if_neg hy]
  | trans h1 h2 ih1 ih2 =>
    intro hn
    exact (ih1 hn).trans (ih2 (((h1.map Prod.fst).nodup_iff).mp hn))

/-- The wide-row indexing only depends on the row up to permutation, when
the row's field names are pairwise distinct. -/
theorem getVal_perm {row row' : List (String × Val)} (hp : row.Perm row')
    (hn : (row.map Prod.fst).Nodup) (k : String) :
    getVal row k = getVal row' k := by
  simp only [getVal, lookupVal_perm k hp hn]

/-- C6: the reshaper returns exactly one record per descriptor, in
descriptor order, each record assembled from the wide row by the
`<column>_<metric>` key convention, and its output is unchanged under any
reordering of the wide row's fields (given pairwise-distinct field
names). -/
theorem claim6 (cols : List Col) (row row' : List (String × Val)) :
    (reshape row cols).length = cols.length ∧
    (reshape row cols).map (fun r => r.column) = cols.map (fun c => c.name) ∧
    (∀ c ∈ cols, reshape1 row c =
      { column := c.name,
        sqltype := (visitName c.type).toUpper,
        pytype := match pythonType c.type with
                  | some p => pyTypeName p
                  | none => "<NULL>",
        min := getVal row (c.name ++ "_min"),
        max := getVal row (c.name ++ "_max"),
        avg := getVal row (c.name ++ "_avg"),
        unique := getVal row (c.name ++ "_unique"),
        nulls := getVal row (c.name ++ "_nulls") }) ∧
    (row.Perm row' → (row.map Prod.fst).Nodup →
      reshape row cols = reshape row' cols) := by
  refine ⟨by simp [reshape], ?_, fun c _ => rfl, ?_⟩
  · simp only [reshape, List.map_map]
    rfl
  · intro hp hn
    simp only [reshape]
    apply List.map_congr_left
    intro c _
    simp only [reshape1, getVal_perm hp hn]

/-- C6 witness: a one-column table against two permutations of the same
wide row. -/
theorem claim6_witness :
    reshape [("a_min", Val.num 1), ("a_max", Val.num 2)] [⟨"a", SqlType.Integer⟩]
      = reshape [("a_max", Val.num 2), ("a_min", Val.num 1)] [⟨"a", SqlType.Integer⟩] :=
  (claim6 [⟨"a", SqlType.Integer⟩] [("a_min", Val.num 1), ("a_max", Val.num 2)]
      [("a_max", Val.num 2), ("a_min", Val.num 1)]).2.2.2
    (List.Perm.swap ("a_max", Val.num 2) ("a_min", Val.num 1) [])
    (by decide)

/-- Bracket stripping distributes over concatenation. -/
theorem stripBrackets_append (xs ys : List Char) :
    stripBrackets (xs ++ ys) = stripBrackets xs ++ stripBrackets ys := by
  induction xs with
  | nil => rfl
  | cons c cs ih =>
    simp only [List.cons_append, stripBrackets]
    split <;> simp [ih]

/-- An opening bracket is dropped. -/
theorem stripBrackets_lb (cs : List Char) :
    stripBrackets ('[' :: cs) = stripBrackets cs := by
  rw [stripBrackets, if_pos (by decide)]

/-- A closing bracket is dropped. -/
theorem stripBrackets_rb (cs : List Char) :
    stripBrackets (']' :: cs) = stripBrackets cs := by
  rw [stripBrackets, if_pos (by decide)]

/-- A dot survives bracket stripping. -/
theorem stripBrackets_dot (cs : List Char) :
    stripBrackets ('.' :: cs) = '.' :: stripBrackets cs := by
  rw [stripBrackets, if_neg (by decide)]

/-- The empty name strips to itself. -/
theorem stripBrackets_nil : stripBrackets [] = [] := rfl

/-- Stripping a fully bracket-quoted piece. -/
theorem stripBrackets_bra (t : List Char) :
    stripBrackets ('[' :: t ++ [']']) = stripBrackets t := by
  simp [stripBrackets_append, stripBrackets_lb, stripBrackets_rb,
    stripBrackets_nil]

/-- A dot-free list is a single split piece. -/
theorem splitDot_no_dot (xs : List Char) (h : '.' ∉ xs) :
    splitDot xs = [xs] := by
  induction xs with
  | nil => rfl
  | cons c cs ih =>
    have hc : ¬ c = '.' := fun hEq => h (hEq ▸ List.mem_cons_self _ _)
    rw [splitDot, if_neg hc, ih (fun hm => h (List.mem_cons_of_mem _ hm))]

/-- Splitting at the first dot after a dot-free prefix. -/
theorem splitDot_append (a b : List Char) (ha : '.' ∉ a) :
    splitDot (a ++ '.' :: b) = a :: splitDot b := by
  induction a with
  | nil => rw [List.nil_append, splitDot, if_pos rfl]
  | cons c cs ih =>
    have hc : ¬ c = '.' := fun hEq => ha (hEq ▸ List.mem_cons_self _ _)
    rw [List.cons_append, splitDot, if_neg hc,
      ih (fun hm => ha (List.mem_cons_of_mem _ hm))]

/-- The parser only depends on the name through its bracket-stripped
form. -/
theorem split_qualified_strip_eq {n1 n2 : List Char}
    (h : stripBrackets n1 = stripBrackets n2) :
    split_qualified n1 = split_qualified n2 := by
  simp only [split_qualified, h]

/-- C3 counterexample: the parser does not split on the first dot only —
on a name with two dots it splits at every dot, finds three pieces and
falls back to "no schema, first piece as table", while the spec's
first-dot parser returns schema `a` and table `b.c`. -/
theorem claim3_counterexample :
    split_qualified ("a.b.c".toList) = (none, "a".toList) ∧
    split_qualified_spec ("a.b.c".toList) = (some ("a".toList), "b.c".toList) ∧
    split_qualified ("a.b.c".toList) ≠ split_qualified_spec ("a.b.c".toList) := by
  decide

/-- C3 amended: the parser strips bracket delimiters and splits on every
dot; a two-piece result yields a (schema, table) pair, any other piece
count yields no schema with the first piece as table. Consequently every
bracket/no-bracket mix of the same dotted name parses identically (so the
schema inspector, a function of the parsed pair, returns identical
descriptor sequences), an unqualified (dot-free) name gets no schema, and
on dot-free schema and table pieces the result coincides with the
first-dot split `(schema, table)`. -/
theorem claim3 (s t : List Char)
    (getColumns : Option (List Char) × List Char → List Col) :
    (split_qualified ('[' :: s ++ ']' :: '.' :: '[' :: t ++ [']'])
      = split_qualified (s ++ '.' :: t)) ∧
    (split_qualified ('[' :: s ++ ']' :: '.' :: t)
      = split_qualified (s ++ '.' :: t)) ∧
    (split_qualified (s ++ '.' :: '[' :: t ++ [']'])
      = split_qualified (s ++ '.' :: t)) ∧
    (getColumns (split_qualified ('[' :: s ++ ']' :: '.' :: '[' :: t ++ [']']))
      = getColumns (split_qualified (s ++ '.' :: t))) ∧
    ('.' ∉ stripBrackets t →
      split_qualified ('[' :: t ++ [']']) = (none, stripBrackets t) ∧
      split_qualified t = (none, stripBrackets t)) ∧
    ('.' ∉ stripBrackets s → '.' ∉ stripBrackets t →
      split_qualified (s ++ '.' :: t)
        = (some (stripBrackets s), stripBrackets t)) := by
  have hmix1 : stripBrackets ('[' :: s ++ ']' :: '.' :: '[' :: t ++ [']'])
      = stripBrackets (s ++ '.' :: t) := by
    simp [stripBrackets_append, stripBrackets_lb, stripBrackets_rb,
      stripBrackets_dot, stripBrackets_nil]
  have hmix2 : stripBrackets ('[' :: s ++ ']' :: '.' :: t)
      = stripBrackets (s ++ '.' :: t) := by
    simp [stripBrackets_append, stripBrackets_lb, stripBrackets_rb,
      stripBrackets_dot, stripBrackets_nil]
  have hmix3 : stripBrackets (s ++ '.' :: '[' :: t ++ [']'])
      = stripBrackets (s ++ '.' :: t) := by
    simp [stripBrackets_append, stripBrackets_lb, stripBrackets_rb,
      stripBrackets_dot, stripBrackets_nil]
  have h1 := split_qualified_strip_eq hmix1
  refine ⟨h1, split_qualified_strip_eq hmix2, split_qualified_strip_eq hmix3,
    congrArg getColumns h1, ?_, ?_⟩
  · intro ht
    have hone : split_qualified t = (none, stripBrackets t) := by
      rw [split_qualified, splitDot_no_dot _ ht]
      rfl
    exact ⟨(split_qualified_strip_eq (stripBrackets_bra t)).trans hone, hone⟩
  · intro hs ht
    rw [split_qualified, stripBrackets_append, stripBrackets_dot,
      splitDot_append _ _ hs, splitDot_no_dot _ ht]

/-- C3 amended witness: the schema-qualified view name of this app in its
four bracket/no-bracket spellings, plus a bare name. -/
theorem claim3_witness :
    split_qualified ('[' :: "dmd".toList ++ ']' :: '.' :: '[' :: "V1".toList ++ [']'])
      = split_qualified ("dmd".toList ++ '.' :: "V1".toList) ∧
    split_qualified ("dmd".toList ++ '.' :: "V1".toList)
      = (some ("dmd".toList), "V1".toList) ∧
    split_qualified ("V1".toList) = (none, "V1".toList) :=
  ⟨(claim3 "dmd".toList "V1".toList (fun _ => [])).1,
   by
    have h := (claim3 "dmd".toList "V1".toList (fun _ => [])).2.2.2.2.2
      (by decide) (by decide)
    simpa using h,
   by
    have h := ((claim3 "dmd".toList "V1".toList (fun _ => [])).2.2.2.2.1
      (by decide)).2
    simpa using h⟩

end DbPeeker
